import Mathlib

/-!
Verification of the VLESS codec and relay core of `rocks_svr`.

The Rust sources (`rocks_lib`) are shallowly embedded here:

* byte buffers are `List Nat` with every element `< 256` where that matters
  (Rust `u8` guarantees it; theorems take it as a hypothesis when needed);
* `ProxyAddress::IPv4`/`IPv6` are modelled by their octet lists — in the Rust
  source the `from_bits ∘ from_be_bytes` / `octets` pair is the identity on
  the four (sixteen) wire octets, so carrying the octets directly is the
  byte-exact semantics of those conversions;
* Rust panics (slice-index out of bounds, `unwrap` on `Err`/`None`) are made
  explicit as a `Panicked` outcome, so indexing is the checked `List.get?` /
  `List.getD` wherever the source proves the index in range;
* in-place buffer mutation (`buffer[i] = v`, `copy_from_slice`) is functional
  list surgery (`setByte` / `setSlice`), and `form` returns the final buffer
  state together with the written size so that partial writes before a
  failure stay observable;
* the async relay loops are driven by an explicit script of scheduler events
  (which `select!` arm fired, what the read returned, how the following
  write/shutdown/send went), and the unbounded loops take fuel, `none`
  meaning the loop is still running after the script.
-/

/-- Mirrors `BufferParseResult` from `buffer_parser/mod.rs`, with one extra
constructor `Panicked` modelling a Rust panic reached during parsing
(out-of-bounds index or `unwrap` of an `Err`). -/
inductive BufferParseResult (T E : Type) where
  | Parsed (value : T) (size : Nat)
  | Incomplete (needed : Nat)
  | Error (e : E)
  | Panicked
deriving DecidableEq

/-- Result of a `form` call: the final buffer contents plus the returned size,
or the failure mode. `insufficient`/`panicked` carry the buffer state at the
moment of failure, so a partial write before the failure is observable. -/
inductive FormResult where
  | ok (buffer : List Nat) (size : Nat)
  | insufficient (buffer : List Nat)
  | panicked (buffer : List Nat)
deriving DecidableEq

/-- Model of `buffer[start..start+data.len()].copy_from_slice(data)`: overwrite
`data.length` bytes at `start`. Callers establish
`start + data.length ≤ buffer.length`. -/
def setSlice (buffer : List Nat) (start : Nat) (data : List Nat) : List Nat :=
  buffer.take start ++ data ++ buffer.drop (start + data.length)

/-- Model of `buffer[i] = v`. -/
def setByte (buffer : List Nat) (i v : Nat) : List Nat :=
  setSlice buffer i [v]

/-- UTF-8 validity of a byte sequence, exactly the acceptance condition of
Rust `std::str::from_utf8` (RFC 3629: no overlong forms, no surrogates, no
code points above U+10FFFF). -/
def validUtf8 : List Nat → Bool
  | [] => true
  | b0 :: r =>
    if b0 < 0x80 then validUtf8 r
    else if b0 < 0xC2 then false
    else if b0 < 0xE0 then
      match r with
      | b1 :: r1 => decide (0x80 ≤ b1 ∧ b1 < 0xC0) && validUtf8 r1
      | [] => false
    else if b0 < 0xF0 then
      match r with
      | b1 :: b2 :: r2 =>
        (if b0 = 0xE0 then decide (0xA0 ≤ b1 ∧ b1 < 0xC0)
         else if b0 = 0xED then decide (0x80 ≤ b1 ∧ b1 < 0xA0)
         else decide (0x80 ≤ b1 ∧ b1 < 0xC0))
          && decide (0x80 ≤ b2 ∧ b2 < 0xC0) && validUtf8 r2
      | _ => false
    else if b0 < 0xF5 then
      match r with
      | b1 :: b2 :: b3 :: r3 =>
        (if b0 = 0xF0 then decide (0x90 ≤ b1 ∧ b1 < 0xC0)
         else if b0 = 0xF4 then decide (0x80 ≤ b1 ∧ b1 < 0x90)
         else decide (0x80 ≤ b1 ∧ b1 < 0xC0))
          && decide (0x80 ≤ b2 ∧ b2 < 0xC0) && decide (0x80 ≤ b3 ∧ b3 < 0xC0)
          && validUtf8 r3
      | _ => false
    else false

/-- Model of `ProxyAddress` from `vless/address.rs`; IP variants carry their wire
octets, `Domain` carries the UTF-8 bytes of the borrowed `&str`. -/
inductive ProxyAddress where
  | IPv4 (octets : List Nat)
  | Domain (bytes : List Nat)
  | IPv6 (octets : List Nat)
deriving DecidableEq

/-- Model of `InvalidAddressType` error marker from `vless/address.rs`. -/
inductive InvalidAddressType where
  | mk
deriving DecidableEq

/-- Model of `ProxyAddress::parse_with_options` from `vless/address.rs`. The
`std::str::from_utf8(..).unwrap()` on the domain bytes is modelled by the
`validUtf8` test: invalid bytes panic. -/
def ProxyAddress.parse_with_options (buffer : List Nat) :
    BufferParseResult ProxyAddress InvalidAddressType :=
  if buffer.length < 3 then .Incomplete (3 - buffer.length)
  else
    match buffer.getD 0 0 with
    | 0x01 =>
      if buffer.length < 5 then .Incomplete (5 - buffer.length)
      else .Parsed (.IPv4 ((buffer.drop 1).take 4)) 5
    | 0x02 =>
      let domain_len := buffer.getD 1 0
      if buffer.length < 2 + domain_len then
        .Incomplete (2 + domain_len - buffer.length)
      else
        let domain := (buffer.drop 2).take domain_len
        if validUtf8 domain then .Parsed (.Domain domain) (2 + domain_len)
        else .Panicked
    | 0x03 =>
      if buffer.length < 17 then .Incomplete (17 - buffer.length)
      else .Parsed (.IPv6 ((buffer.drop 1).take 16)) 17
    | _ => .Error .mk

/-- Model of `ProxyAddress::parse` (default options are `()`). -/
def ProxyAddress.parse (buffer : List Nat) :
    BufferParseResult ProxyAddress InvalidAddressType :=
  ProxyAddress.parse_with_options buffer

/-- Model of `ProxyAddress::form_with_option` from `vless/address.rs`. -/
def ProxyAddress.form_with_option (a : ProxyAddress) (buffer : List Nat) :
    FormResult :=
  match a with
  | .IPv4 octets =>
    if buffer.length < 5 then .insufficient buffer
    else .ok (setSlice (setByte buffer 0 0x01) 1 octets) 5
  | .Domain domain =>
    let domain_len := domain.length
    if buffer.length < 2 + domain_len then .insufficient buffer
    else
      .ok (setSlice (setByte (setByte buffer 0 0x02) 1 (domain_len % 256)) 2
        domain) (2 + domain_len)
  | .IPv6 octets =>
    if buffer.length < 17 then .insufficient buffer
    else .ok (setSlice (setByte buffer 0 0x03) 1 octets) 17

/-- Model of `ProxyAddress::form` (default options). -/
def ProxyAddress.form (a : ProxyAddress) (buffer : List Nat) : FormResult :=
  ProxyAddress.form_with_option a buffer

/-- Model of `ProxyAddress::size_with_option` from `vless/address.rs`. -/
def ProxyAddress.size_with_option : ProxyAddress → Nat
  | .IPv4 _ => 5
  | .Domain domain => 2 + domain.length
  | .IPv6 _ => 17

/-- Model of `ProxyAddress::size` (default options). -/
def ProxyAddress.size (a : ProxyAddress) : Nat :=
  ProxyAddress.size_with_option a

/-- The `ProxyAddress` well-formedness guaranteed by the Rust types:
IP octet lists have their fixed lengths, a `Domain` is the byte view of a
`&str`, hence valid UTF-8. -/
def ProxyAddress.WF : ProxyAddress → Prop
  | .IPv4 octets => octets.length = 4
  | .Domain domain => validUtf8 domain = true
  | .IPv6 octets => octets.length = 16

/-- Model of `ProxyAddressWithPort` from `vless/address.rs`: an address plus a
big-endian `u16` port (`port < 2^16` in Rust, taken as a hypothesis where it
matters). -/
structure ProxyAddressWithPort where
  address : ProxyAddress
  port : Nat
deriving DecidableEq

/-- Model of `ProxyAddressWithPort::parse_with_options` from `vless/address.rs`:
`u16::from_be_bytes(buffer[..2])` then the address from `buffer[2..]`. -/
def ProxyAddressWithPort.parse_with_options (buffer : List Nat) :
    BufferParseResult ProxyAddressWithPort InvalidAddressType :=
  if buffer.length < 3 then .Incomplete (3 - buffer.length)
  else
    let port := buffer.getD 0 0 * 256 + buffer.getD 1 0
    match ProxyAddress.parse (buffer.drop 2) with
    | .Parsed address size => .Parsed ⟨address, port⟩ (size + 2)
    | .Incomplete needed => .Incomplete needed
    | .Error e => .Error e
    | .Panicked => .Panicked

/-- Model of `ProxyAddressWithPort::parse` (default options). -/
def ProxyAddressWithPort.parse (buffer : List Nat) :
    BufferParseResult ProxyAddressWithPort InvalidAddressType :=
  ProxyAddressWithPort.parse_with_options buffer

/-- Model of `ProxyAddressWithPort::form_with_option` from `vless/address.rs`: the
port bytes are written before the address former runs, and an address-former
failure propagates with the port bytes already in the buffer. -/
def ProxyAddressWithPort.form_with_option (a : ProxyAddressWithPort)
    (buffer : List Nat) : FormResult :=
  if buffer.length < 2 then .insufficient buffer
  else
    let b1 := setSlice buffer 0 [a.port / 256 % 256, a.port % 256]
    match ProxyAddress.form_with_option a.address (b1.drop 2) with
    | .ok sub size => .ok (b1.take 2 ++ sub) (2 + size)
    | .insufficient sub => .insufficient (b1.take 2 ++ sub)
    | .panicked sub => .panicked (b1.take 2 ++ sub)

/-- Model of `ProxyAddressWithPort::form` (default options). -/
def ProxyAddressWithPort.form (a : ProxyAddressWithPort)
    (buffer : List Nat) : FormResult :=
  ProxyAddressWithPort.form_with_option a buffer

/-- Model of `ProxyAddressWithPort::size_with_option`. -/
def ProxyAddressWithPort.size_with_option (a : ProxyAddressWithPort) : Nat :=
  2 + a.address.size

/-- Model of `ProxyAddressWithPort::size` (default options). -/
def ProxyAddressWithPort.size (a : ProxyAddressWithPort) : Nat :=
  a.size_with_option

/-- Model of `VlessHeaderParseError` from `vless/mod.rs`. -/
inductive VlessHeaderParseError where
  | InvalidCommand
  | InvalidVersion
  | AddonIsNotSupported
  | InvalidAddress
deriving DecidableEq

/-- Model of `VlessCommand` from `vless/request.rs`. -/
inductive VlessCommand where
  | Mux
  | Tcp
  | Udp
deriving DecidableEq

/-- Model of `VlessrParseOptions` from `vless/request.rs` (default: `is_fb = false`). -/
structure VlessrParseOptions where
  is_fb : Bool
deriving DecidableEq

instance : Inhabited VlessrParseOptions := ⟨⟨false⟩⟩

/-- Model of `VlessRequestHeader` from `vless/request.rs`; `user` is the 16-byte UUID
(`user.length = 16` in Rust, a hypothesis where it matters). -/
structure VlessRequestHeader where
  address : ProxyAddressWithPort
  user : List Nat
  command : VlessCommand
deriving DecidableEq

/-- The synthetic Mux destination `Domain("v1.mux.cool"):0` from
`vless/request.rs` (the UTF-8 bytes of `"v1.mux.cool"`). -/
def muxSentinel : ProxyAddressWithPort :=
  ⟨.Domain [118, 49, 46, 109, 117, 120, 46, 99, 111, 111, 108], 0⟩

/-- Model of `VlessRequestHeader::parse_with_options` from `vless/request.rs`.
The source checks only `buffer.len() >= min_size` (18 by default) and then
indexes `buffer[min_size]`, so a buffer of exactly `min_size` bytes panics:
modelled by `List.get?` returning `none` ↦ `Panicked`. Indices `0`, `1..17`
and `17` are below `min_size`, hence in range, and use `getD`/`take`. -/
def VlessRequestHeader.parse_with_options (buffer : List Nat)
    (options : VlessrParseOptions) :
    BufferParseResult VlessRequestHeader VlessHeaderParseError :=
  let min_size_before_cmd := (if options.is_fb then 2 else 1) * 17
  let min_size := min_size_before_cmd + 1
  if buffer.length < min_size then
    .Incomplete (min_size - buffer.length + 1)
  else if buffer.getD 0 0 ≠ 0x00 then .Error .InvalidVersion
  else
    let user := (buffer.drop 1).take 16
    if buffer.getD 17 0 ≠ 0x00 then .Error .AddonIsNotSupported
    else
      match buffer.get? min_size with
      | none => .Panicked
      | some cmd =>
        let parsed :
            VlessCommand ×
              BufferParseResult ProxyAddressWithPort InvalidAddressType :=
          match cmd with
          | 0x01 =>
            (.Tcp, ProxyAddressWithPort.parse (buffer.drop (min_size + 1)))
          | 0x02 =>
            (.Udp, ProxyAddressWithPort.parse (buffer.drop (min_size + 1)))
          | 0x03 => (.Mux, .Parsed muxSentinel 0)
          | _ => (.Tcp, .Error .mk)
        match cmd with
        | 0x01 | 0x02 | 0x03 =>
          match parsed with
          | (command, .Parsed address size) =>
            .Parsed ⟨address, user, command⟩ (min_size + 1 + size)
          | (_, .Incomplete needed) => .Incomplete needed
          | (_, .Error _) => .Error .InvalidAddress
          | (_, .Panicked) => .Panicked
        | _ => .Error .InvalidCommand

/-- Model of `VlessRequestHeader::parse` (default options). -/
def VlessRequestHeader.parse (buffer : List Nat) :
    BufferParseResult VlessRequestHeader VlessHeaderParseError :=
  VlessRequestHeader.parse_with_options buffer default

/-- Model of `VlessRequestHeader::size_with_option` from `vless/request.rs`:
`18 + 1 + self.address.size()`, with no special case for `Mux`. -/
def VlessRequestHeader.size_with_option (h : VlessRequestHeader) : Nat :=
  18 + 1 + h.address.size

/-- Model of `VlessRequestHeader::size` (default options). -/
def VlessRequestHeader.size (h : VlessRequestHeader) : Nat :=
  h.size_with_option

/-- The command byte written by `VlessRequestHeader::form_with_option`. -/
def VlessCommand.byte : VlessCommand → Nat
  | .Tcp => 0x01
  | .Udp => 0x02
  | .Mux => 0x03

/-- Model of `VlessRequestHeader::form_with_option` from `vless/request.rs`: version,
UUID, zero addon, command byte, then **always** `self.address.form` into
`buffer[19..]` — also for `Mux`. -/
def VlessRequestHeader.form_with_option (h : VlessRequestHeader)
    (buffer : List Nat) : FormResult :=
  if buffer.length < h.size then .insufficient buffer
  else
    let b1 := setByte buffer 0 0x00
    let b2 := setSlice b1 1 h.user
    let b3 := setByte b2 17 0x00
    let b4 := setByte b3 18 h.command.byte
    match ProxyAddressWithPort.form h.address (b4.drop 19) with
    | .ok sub size => .ok (b4.take 19 ++ sub) (19 + size)
    | .insufficient sub => .insufficient (b4.take 19 ++ sub)
    | .panicked sub => .panicked (b4.take 19 ++ sub)

/-- Model of `VlessRequestHeader::form` (default options). -/
def VlessRequestHeader.form (h : VlessRequestHeader) (buffer : List Nat) :
    FormResult :=
  h.form_with_option buffer

/-- Model of `VlessResponseHeader::form_with_option` from `vless/response.rs`: writes
`buffer[0] = 0` then `buffer[1] = 0` with **no** length check (its error type
is the empty `Never`), so a short buffer panics — after the first byte was
already written when the length is exactly 1. -/
def VlessResponseHeader.form_with_option (buffer : List Nat) : FormResult :=
  if buffer.length < 1 then .panicked buffer
  else
    let b1 := setByte buffer 0 0x00
    if b1.length < 2 then .panicked b1
    else .ok (setByte b1 1 0x00) 2

/-- Model of `VlessResponseHeader::size_with_option`. -/
def VlessResponseHeader.size_with_option : Nat := 2

/-- State of `UnsendDataWrite` from `buffer_parser/mod.rs`: the `pending`
queue (`unsent`) and the remembered prepend length (`orig_size`). -/
structure UnsendState where
  unsent : Option (List Nat)
  orig_size : Nat
deriving DecidableEq

/-- Model of `UnsendDataWrite::new(writer, Some(p))`. -/
def UnsendState.new (p : List Nat) : UnsendState :=
  ⟨some p, p.length⟩

/-- A poll outcome: what the inner writer answers to one `poll_write`, and
what the adapter returns to its caller. -/
inductive WriteResult where
  | ready (n : Nat)
  | pending
  | ioError
deriving DecidableEq

/-- One step of `UnsendDataWrite::poll_write` from `buffer_parser/mod.rs`.
`resp` is the inner writer's answer to being offered the concatenated
buffer. Returns the new state, the result handed to the caller, and the
bytes the inner writer durably consumed in this call (the first `n` of the
offered bytes when it answered `Ready(Ok(n))`). -/
def UnsendState.poll_write (s : UnsendState) (buf : List Nat)
    (resp : WriteResult) : UnsendState × WriteResult × List Nat :=
  match s.unsent with
  | some u =>
    let u2 := u ++ buf
    match resp with
    | .ready n =>
      let unsent' := if n < u2.length then some (u2.drop n) else none
      if n < s.orig_size then
        (⟨unsent', s.orig_size - n⟩, .pending, u2.take n)
      else
        (⟨unsent', s.orig_size⟩, .ready (n - s.orig_size), u2.take n)
    | .pending => (⟨some u2, s.orig_size⟩, .pending, [])
    | .ioError => (⟨some u2, s.orig_size⟩, .ioError, [])
  | none =>
    match resp with
    | .ready n => (s, .ready n, buf.take n)
    | .pending => (s, .pending, [])
    | .ioError => (s, .ioError, [])

/-- Run a sequence of `poll_write` calls, each given as the caller's buffer
and the inner writer's response; collect the caller-visible results and the
full byte stream the inner writer consumed. -/
def UnsendState.runCalls (s : UnsendState) :
    List (List Nat × WriteResult) → UnsendState × List WriteResult × List Nat
  | [] => (s, [], [])
  | (buf, resp) :: rest =>
    let step := s.poll_write buf resp
    let tail := step.1.runCalls rest
    (tail.1, step.2.1 :: tail.2.1, step.2.2 ++ tail.2.2)

deriving instance DecidableEq for Except

/-- Which `select!` arm of `tcp::proxy` fired. -/
inductive Side where
  | inS
  | outS
deriving DecidableEq

/-- One scheduler event of the byte-stream relay `tcp::proxy`
(`tcp/mod.rs`): which read completed, with what result (`[]` = EOF), and how
the I/O that the branch then performs (the `write_all` of the chunk, or the
`shutdown` on EOF) turns out. Error codes are abstract `Nat`s. -/
structure RelayEv where
  side : Side
  readRes : Except Nat (List Nat)
  ioRes : Except Nat Unit
deriving DecidableEq

/-- Observable outcome of a `tcp::proxy` run over a finite event script:
bytes written to each write half, which halves were shut down, the returned
result (`none` = the loop is still running, the script ran out), and the
events the loop never consumed. -/
structure RelayRes where
  outWritten : List Nat
  inWritten : List Nat
  outShutdown : Bool
  inShutdown : Bool
  outcome : Option (Except Nat Unit)
  rest : List RelayEv
deriving DecidableEq

/-- Model of `tcp::proxy` from `tcp/mod.rs`, driven by an event script. Each loop
iteration consumes one event: a read error propagates (`n?`); a zero read
shuts the opposite write half down and returns `Ok`; otherwise the chunk is
written whole to the opposite half (`write_all`) before the next iteration,
a write or shutdown error propagating. -/
def tcpProxy : List RelayEv → RelayRes
  | [] => ⟨[], [], false, false, none, []⟩
  | ev :: evs =>
    match ev.side, ev.readRes with
    | .inS, .error e => ⟨[], [], false, false, some (.error e), evs⟩
    | .inS, .ok c =>
      if c.isEmpty then
        match ev.ioRes with
        | .ok _ => ⟨[], [], true, false, some (.ok ()), evs⟩
        | .error e => ⟨[], [], false, false, some (.error e), evs⟩
      else
        match ev.ioRes with
        | .ok _ =>
          let r := tcpProxy evs
          ⟨c ++ r.outWritten, r.inWritten, r.outShutdown, r.inShutdown,
            r.outcome, r.rest⟩
        | .error e => ⟨[], [], false, false, some (.error e), evs⟩
    | .outS, .error e => ⟨[], [], false, false, some (.error e), evs⟩
    | .outS, .ok c =>
      if c.isEmpty then
        match ev.ioRes with
        | .ok _ => ⟨[], [], false, true, some (.ok ()), evs⟩
        | .error e => ⟨[], [], false, false, some (.error e), evs⟩
      else
        match ev.ioRes with
        | .ok _ =>
          let r := tcpProxy evs
          ⟨r.outWritten, c ++ r.inWritten, r.outShutdown, r.inShutdown,
            r.outcome, r.rest⟩
        | .error e => ⟨[], [], false, false, some (.error e), evs⟩

/-- An event that keeps `tcp::proxy` looping: a successful non-empty read
whose follow-up `write_all` succeeded. -/
def RelayEv.Progressing (ev : RelayEv) : Prop :=
  (match ev.readRes with
   | .ok c => c ≠ []
   | .error _ => False) ∧ ev.ioRes = .ok ()

/-- The bytes `tcp::proxy` reads from side `s` over a script (concatenated
in order); they are the bytes written to the opposite write half. -/
def chunksFrom (s : Side) : List RelayEv → List Nat
  | [] => []
  | ev :: evs =>
    (if ev.side = s then
      match ev.readRes with
      | .ok c => c
      | .error _ => []
     else []) ++ chunksFrom s evs

/-- One scheduler event of the message-stream relay
`websocket::proxy_sink_stream` (`websocket/mod.rs`): either the client
stream yielded (`none` = stream exhausted), paired with the outcome of the
`write_all` to the outbound socket; or the outbound read completed, paired
with the outcome of the `sink.send`. -/
inductive MsgEv where
  | fromIn (m : Option (Except Nat (List Nat))) (wr : Except Nat Unit)
  | fromOut (r : Except Nat (List Nat)) (snd : Except Nat Unit)
deriving DecidableEq

/-- How a `proxy_sink_stream` run ended. -/
inductive SinkOutcome where
  | ok
  | err (e : Nat)
  | panicked
deriving DecidableEq

/-- Observable outcome of a `proxy_sink_stream` run: bytes written to the
outbound socket, messages sent on the sink, the ending (`none` = still
looping), and unconsumed events. -/
structure SinkRes where
  outWritten : List Nat
  sent : List (List Nat)
  outcome : Option SinkOutcome
  rest : List MsgEv
deriving DecidableEq

/-- Model of `websocket::proxy_sink_stream` from `websocket/mod.rs`, driven by an
event script. A stream item that is an error, or a stream end, or an
outbound read error all `break` out of the loop and the function returns
`Ok(())`; the `write_all` to the outbound socket is `.unwrap()`ed (panics on
error); a zero outbound read sends one empty message and returns `Ok`;
`sink.send` errors propagate with `?`. -/
def proxy_sink_stream : List MsgEv → SinkRes
  | [] => ⟨[], [], none, []⟩
  | ev :: evs =>
    match ev with
    | .fromIn none _ => ⟨[], [], some .ok, evs⟩
    | .fromIn (some (.error _)) _ => ⟨[], [], some .ok, evs⟩
    | .fromIn (some (.ok msg)) wr =>
      match wr with
      | .ok _ =>
        let r := proxy_sink_stream evs
        ⟨msg ++ r.outWritten, r.sent, r.outcome, r.rest⟩
      | .error _ => ⟨[], [], some .panicked, evs⟩
    | .fromOut (.error _) _ => ⟨[], [], some .ok, evs⟩
    | .fromOut (.ok c) snd =>
      if c.isEmpty then
        match snd with
        | .ok _ => ⟨[], [[]], some .ok, evs⟩
        | .error e => ⟨[], [], some (.err e), evs⟩
      else
        match snd with
        | .ok _ =>
          let r := proxy_sink_stream evs
          ⟨r.outWritten, c :: r.sent, r.outcome, r.rest⟩
        | .error e => ⟨[], [], some (.err e), evs⟩

/-- An event that keeps `proxy_sink_stream` looping. -/
def MsgEv.Progressing : MsgEv → Prop
  | .fromIn (some (.ok _)) (.ok _) => True
  | .fromOut (.ok c) (.ok _) => c ≠ []
  | _ => False

/-- The header-read loop of `VlessProtocol::handle` (`vless/mod.rs`),
scripted and fuelled. `reads` is what successive `in_rd.read` calls return;
once the list is exhausted every further read returns 0 bytes (EOF on a TCP
stream). The source adds `s` to `offset` and re-parses; nothing in it
handles `s == 0`, so an EOF leaves `data` unchanged and the loop spins:
`none` means the loop is still running when the fuel runs out. -/
def handleHeaderLoop : Nat → List Nat → List (List Nat) →
    Option (Except VlessHeaderParseError (VlessRequestHeader × Nat))
  | 0, _, _ => none
  | fuel + 1, data, reads =>
    match VlessRequestHeader.parse data with
    | .Parsed value size => some (.ok (value, size))
    | .Error e => some (.error e)
    | .Panicked => some (.error .InvalidAddress)
    | .Incomplete _ =>
      match reads with
      | [] => handleHeaderLoop fuel data []
      | c :: rest => handleHeaderLoop fuel (data ++ c) rest

/-- The wire encoding `form` writes for a `ProxyAddress` (tag byte, then for
a domain the length byte reduced mod 256, then the payload octets). -/
def ProxyAddress.wire : ProxyAddress → List Nat
  | .IPv4 octets => 0x01 :: octets
  | .Domain domain => 0x02 :: domain.length % 256 :: domain
  | .IPv6 octets => 0x03 :: octets

/-- The wire encoding of a `ProxyAddressWithPort`: big-endian port, then the
address encoding. -/
def ProxyAddressWithPort.wire (a : ProxyAddressWithPort) : List Nat :=
  a.port / 256 % 256 :: a.port % 256 :: a.address.wire


/-- The bytes the message relay reads from the client stream over a script
(concatenated in order); they are the bytes written to the outbound socket. -/
def inMsgBytes : List MsgEv → List Nat
  | [] => []
  | .fromIn (some (.ok msg)) _ :: r => msg ++ inMsgBytes r
  | _ :: r => inMsgBytes r

/-- The chunks the message relay reads from the outbound socket over a
script; each becomes one sink message. -/
def outChunkMsgs : List MsgEv → List (List Nat)
  | [] => []
  | .fromOut (.ok c) _ :: r => c :: outChunkMsgs r
  | _ :: r => outChunkMsgs r

theorem ProxyAddress.wire_length (a : ProxyAddress) (hwf : a.WF) :
    a.wire.length = a.size := by
  cases a with
  | IPv4 octets =>
    have h4 : octets.length = 4 := hwf
    simp [ProxyAddress.wire, ProxyAddress.size, ProxyAddress.size_with_option,
      h4]
  | Domain domain =>
    simp only [ProxyAddress.wire, ProxyAddress.size,
      ProxyAddress.size_with_option, List.length_cons]
    omega
  | IPv6 octets =>
    have h16 : octets.length = 16 := hwf
    simp [ProxyAddress.wire, ProxyAddress.size, ProxyAddress.size_with_option,
      h16]

theorem ProxyAddress.form_replicate (a : ProxyAddress) (hwf : a.WF) :
    a.form (List.replicate a.size 0) = .ok a.wire a.size := by
  cases a with
  | IPv4 octets =>
    have h4 : octets.length = 4 := hwf
    simp [ProxyAddress.form, ProxyAddress.form_with_option, ProxyAddress.size,
      ProxyAddress.size_with_option, setSlice, setByte, ProxyAddress.wire,
      List.replicate_succ, h4]
  | Domain domain =>
    simp [ProxyAddress.form, ProxyAddress.form_with_option, ProxyAddress.size,
      ProxyAddress.size_with_option, setSlice, setByte, ProxyAddress.wire,
      List.replicate_succ, List.take_replicate, List.drop_replicate]
    omega
  | IPv6 octets =>
    have h16 : octets.length = 16 := hwf
    simp [ProxyAddress.form, ProxyAddress.form_with_option, ProxyAddress.size,
      ProxyAddress.size_with_option, setSlice, setByte, ProxyAddress.wire,
      List.replicate_succ, h16]

theorem ProxyAddress.parse_wire (a : ProxyAddress) (hwf : a.WF)
    (hdom : ∀ d, a = .Domain d → 1 ≤ d.length ∧ d.length ≤ 255) :
    ProxyAddress.parse a.wire = .Parsed a a.size := by
  cases a with
  | IPv4 octets =>
    have h4 : octets.length = 4 := hwf
    simp [ProxyAddress.parse, ProxyAddress.parse_with_options,
      ProxyAddress.wire, ProxyAddress.size, ProxyAddress.size_with_option, h4]
  | Domain domain =>
    have hd := hdom domain rfl
    have hv : validUtf8 domain = true := hwf
    have hlen : domain.length % 256 = domain.length :=
      Nat.mod_eq_of_lt (by omega)
    show ProxyAddress.parse (0x02 :: domain.length % 256 :: domain) = _
    rw [hlen]
    unfold ProxyAddress.parse ProxyAddress.parse_with_options
    rw [if_neg (by simp; omega)]
    simp only [List.getD_cons_zero, List.getD_cons_succ, List.drop_succ_cons,
      List.drop_zero, List.take_length, List.length_cons]
    rw [if_neg (by omega)]
    simp [hv, ProxyAddress.size, ProxyAddress.size_with_option]
  | IPv6 octets =>
    have h16 : octets.length = 16 := hwf
    simp [ProxyAddress.parse, ProxyAddress.parse_with_options,
      ProxyAddress.wire, ProxyAddress.size, ProxyAddress.size_with_option, h16]

theorem ProxyAddressWithPort.wirePort_length (a : ProxyAddressWithPort)
    (hwf : a.address.WF) : a.wire.length = a.size := by
  simp [ProxyAddressWithPort.wire, ProxyAddressWithPort.size,
    ProxyAddressWithPort.size_with_option,
    ProxyAddress.wire_length a.address hwf]
  omega

theorem ProxyAddressWithPort.formPort_replicate (a : ProxyAddressWithPort)
    (hwf : a.address.WF) :
    a.form (List.replicate a.size 0) = .ok a.wire a.size := by
  have hs := ProxyAddress.form_replicate a.address hwf
  unfold ProxyAddress.form at hs
  unfold ProxyAddressWithPort.form ProxyAddressWithPort.form_with_option
  rw [if_neg (by
    simp [ProxyAddressWithPort.size, ProxyAddressWithPort.size_with_option])]
  have hrep : List.replicate a.size 0
      = (0 : Nat) :: (0 : Nat) :: List.replicate a.address.size 0 := by
    show List.replicate (2 + a.address.size) 0 = _
    rw [List.replicate_add]
    rfl
  rw [hrep]
  simp only [setSlice, List.take_cons, List.take_zero, List.drop_succ_cons,
    List.length_cons, List.length_nil, List.drop_zero, List.nil_append,
    List.cons_append, List.append_nil]
  simp only [List.take_succ_cons, List.take_zero, List.drop_succ_cons,
    List.drop_zero]
  rw [hs]
  simp [ProxyAddressWithPort.wire, ProxyAddressWithPort.size,
    ProxyAddressWithPort.size_with_option, Nat.add_comm]

theorem ProxyAddressWithPort.parsePort_wire (a : ProxyAddressWithPort)
    (hwf : a.address.WF)
    (hdom : ∀ d, a.address = .Domain d → 1 ≤ d.length ∧ d.length ≤ 255)
    (hport : a.port < 65536) :
    ProxyAddressWithPort.parse a.wire = .Parsed a a.size := by
  have hp := ProxyAddress.parse_wire a.address hwf hdom
  have hw : 1 ≤ a.address.wire.length := by
    cases a.address <;> simp [ProxyAddress.wire]
  unfold ProxyAddressWithPort.parse ProxyAddressWithPort.parse_with_options
  rw [if_neg (by simp [ProxyAddressWithPort.wire]; omega)]
  simp only [ProxyAddressWithPort.wire, List.getD_cons_zero,
    List.getD_cons_succ, List.drop_succ_cons, List.drop_zero]
  rw [hp]
  have hpt : a.port / 256 % 256 * 256 + a.port % 256 = a.port := by omega
  simp [hpt, ProxyAddressWithPort.size, ProxyAddressWithPort.size_with_option,
    Nat.add_comm]

theorem setSlice_append (l1 l2 data : List Nat) (start : Nat)
    (h : start + data.length ≤ l1.length) :
    setSlice (l1 ++ l2) start data = setSlice l1 start data ++ l2 := by
  unfold setSlice
  rw [List.take_append_eq_append_take, List.drop_append_eq_append_drop]
  have h1 : start ≤ l1.length := by omega
  rw [Nat.sub_eq_zero_of_le h1, Nat.sub_eq_zero_of_le h]
  simp

theorem VlessRequestHeader.formHeader_replicate (h : VlessRequestHeader)
    (hu : h.user.length = 16) (hwf : h.address.address.WF) :
    h.form (List.replicate h.size 0)
      = .ok ((0x00 :: h.user ++ [0x00, h.command.byte]) ++ h.address.wire)
          h.size := by
  have hs := ProxyAddressWithPort.formPort_replicate h.address hwf
  have hsplit : List.replicate h.size 0
      = List.replicate 19 (0 : Nat) ++ List.replicate h.address.size 0 := by
    show List.replicate (19 + h.address.size) 0 = _
    rw [List.replicate_add]
  have hp2 : setSlice (List.replicate 19 (0 : Nat)) 1 h.user
      = 0x00 :: h.user ++ [0x00, 0x00] := by
    simp [setSlice, hu]
  have hp3 : setByte (0x00 :: h.user ++ [0x00, 0x00]) 17 0x00
      = 0x00 :: h.user ++ [0x00, 0x00] := by
    have h17 : (0x00 :: h.user).length = 17 := by simp [hu]
    rw [setByte, setSlice, show (0x00 :: h.user ++ [0x00, 0x00])
        = (0x00 :: h.user) ++ [0x00, 0x00] by simp]
    rw [List.take_append_eq_append_take, List.drop_append_eq_append_drop]
    rw [h17]
    rw [List.take_of_length_le (by omega), List.drop_eq_nil_of_le (by omega)]
    simp
  have hp4 : setByte (0x00 :: h.user ++ [0x00, 0x00]) 18 h.command.byte
      = 0x00 :: h.user ++ [0x00, h.command.byte] := by
    have h18 : (0x00 :: h.user ++ [0x00]).length = 18 := by simp [hu]
    rw [setByte, setSlice, show (0x00 :: h.user ++ [0x00, 0x00])
        = (0x00 :: h.user ++ [0x00]) ++ [0x00] by simp]
    rw [List.take_append_eq_append_take, List.drop_append_eq_append_drop]
    rw [h18]
    rw [List.take_of_length_le (by simp [hu]), List.drop_eq_nil_of_le (by
      simp [hu])]
    simp
  have hlen19 : (0x00 :: h.user ++ [0x00, h.command.byte]).length = 19 := by
    simp [hu]
  have hb1 : setByte
      (List.replicate 19 (0 : Nat) ++ List.replicate h.address.size 0) 0 0x00
      = List.replicate 19 (0 : Nat) ++ List.replicate h.address.size 0 := by
    rw [setByte, setSlice_append _ _ _ _ (by simp)]
    rfl
  have hb2 : setSlice
      (List.replicate 19 (0 : Nat) ++ List.replicate h.address.size 0) 1
      h.user
      = (0x00 :: h.user ++ [0x00, 0x00]) ++ List.replicate h.address.size 0 := by
    rw [setSlice_append _ _ _ _ (by simp [hu]), hp2]
  have hb3 : setByte
      ((0x00 :: h.user ++ [0x00, 0x00]) ++ List.replicate h.address.size 0) 17
      0x00
      = (0x00 :: h.user ++ [0x00, 0x00]) ++ List.replicate h.address.size 0 := by
    rw [setByte, setSlice_append _ _ _ _ (by simp [hu])]
    rw [show setSlice (0x00 :: h.user ++ [0x00, 0x00]) 17 [0x00]
        = setByte (0x00 :: h.user ++ [0x00, 0x00]) 17 0x00 from rfl, hp3]
  have hb4 : setByte
      ((0x00 :: h.user ++ [0x00, 0x00]) ++ List.replicate h.address.size 0) 18
      h.command.byte
      = (0x00 :: h.user ++ [0x00, h.command.byte])
        ++ List.replicate h.address.size 0 := by
    rw [setByte, setSlice_append _ _ _ _ (by simp [hu])]
    rw [show setSlice (0x00 :: h.user ++ [0x00, 0x00]) 18 [h.command.byte]
        = setByte (0x00 :: h.user ++ [0x00, 0x00]) 18 h.command.byte from rfl,
      hp4]
  unfold VlessRequestHeader.form VlessRequestHeader.form_with_option
  rw [if_neg (by simp)]
  rw [hsplit]
  simp only [hb1, hb2, hb3, hb4]
  rw [List.drop_left' hlen19, hs, List.take_left' hlen19]
  rfl

theorem VlessRequestHeader.parse_mux_wire (u rest : List Nat)
    (hu : u.length = 16) :
    VlessRequestHeader.parse ((0x00 :: u ++ [0x00, 0x03]) ++ rest)
      = .Parsed ⟨muxSentinel, u, .Mux⟩ 19 := by
  have hassoc : (0x00 :: u ++ [0x00, 0x03]) ++ rest
      = 0x00 :: (u ++ ([0x00, 0x03] ++ rest)) := by simp
  have hU : ((0x00 :: (u ++ ([0x00, 0x03] ++ rest))).drop 1).take 16 = u := by
    simp [List.take_append_eq_append_take, hu, List.take_of_length_le]
  have hA : (0x00 :: (u ++ ([0x00, 0x03] ++ rest))).getD 17 0 = 0x00 := by
    rw [List.getD_cons_succ, List.getD_append_right _ _ _ _ (by omega)]
    simp [hu]
  rw [hassoc]
  unfold VlessRequestHeader.parse VlessRequestHeader.parse_with_options
  simp only [List.getD_cons_zero, hU, hA, Nat.one_mul, ne_eq,
    not_true_eq_false, not_false_eq_true, ite_false, ite_true, if_false]
  simp
  rw [if_neg (by omega)]
  rw [show (u ++ 0 :: 3 :: rest)[17]? = some 3 from by
    rw [List.getElem?_append_right (by omega)]
    simp [hu]]

theorem tcpProxy_append (pre evs : List RelayEv)
    (hp : ∀ ev ∈ pre, ev.Progressing) :
    tcpProxy (pre ++ evs)
      = ⟨chunksFrom .inS pre ++ (tcpProxy evs).outWritten,
          chunksFrom .outS pre ++ (tcpProxy evs).inWritten,
          (tcpProxy evs).outShutdown, (tcpProxy evs).inShutdown,
          (tcpProxy evs).outcome, (tcpProxy evs).rest⟩ := by
  induction pre with
  | nil => simp [chunksFrom]
  | cons ev pre ih =>
    have hev := hp ev (List.mem_cons_self _ _)
    have hrest : ∀ e ∈ pre, e.Progressing :=
      fun e he => hp e (List.mem_cons_of_mem _ he)
    obtain ⟨hread, hio⟩ := hev
    cases hev2 : ev.readRes with
    | error e => rw [hev2] at hread; exact hread.elim
    | ok c =>
      rw [hev2] at hread
      have hc : c.isEmpty = false := by
        cases c with
        | nil => exact absurd rfl hread
        | cons x xs => rfl
      cases hside : ev.side <;>
        simp [tcpProxy, hside, hev2, hio, hc, ih hrest, chunksFrom]

theorem proxy_sink_stream_append (pre evs : List MsgEv)
    (hp : ∀ ev ∈ pre, ev.Progressing) :
    proxy_sink_stream (pre ++ evs)
      = ⟨inMsgBytes pre ++ (proxy_sink_stream evs).outWritten,
          outChunkMsgs pre ++ (proxy_sink_stream evs).sent,
          (proxy_sink_stream evs).outcome,
          (proxy_sink_stream evs).rest⟩ := by
  induction pre with
  | nil => simp [inMsgBytes, outChunkMsgs]
  | cons ev pre ih =>
    have hev := hp ev (List.mem_cons_self _ _)
    have hrest : ∀ e ∈ pre, e.Progressing :=
      fun e he => hp e (List.mem_cons_of_mem _ he)
    cases ev with
    | fromIn m wr =>
      match m, wr with
      | none, _ => exact hev.elim
      | some (.error e), _ => exact hev.elim
      | some (.ok msg), .error e => exact hev.elim
      | some (.ok msg), .ok _ =>
        simp [proxy_sink_stream, ih hrest, inMsgBytes, outChunkMsgs]
    | fromOut r snd =>
      match r, snd with
      | .error e, _ => exact hev.elim
      | .ok c, .error e => exact hev.elim
      | .ok c, .ok _ =>
        have hc : c.isEmpty = false := by
          cases c with
          | nil => exact absurd rfl hev
          | cons x xs => rfl
        simp [proxy_sink_stream, hc, ih hrest, inMsgBytes, outChunkMsgs]

/-- Claim C1 (evidence of the code bug): against `UnsendDataWrite` primed
with P = `[0,0]`, (a) a `poll_write([9])` that the inner writer answers with
`Ready(Ok(1))` followed by a retry `poll_write([9])` answered
`Ready(Ok(3))` makes the inner writer observe `[0,0,9,9]` — the application
byte 9 is duplicated — and the second call returns `ready 2` although the
caller's buffer held a single byte; (b) a single `poll_write([9,8])`
answered `Ready(Ok(3))` drains 3 ≥ |P| bytes yet leaves the pending queue
at `some [8]` instead of clearing it. Both contradict the claim that the
inner writer observes exactly P ++ accepted bytes with no duplication and
that the queue is cleared once |P| bytes have drained. -/
theorem unsendDataWrite_drain_corrupts :
    UnsendState.runCalls (UnsendState.new [0, 0])
      [([9], .ready 1), ([9], .ready 3)]
      = (⟨none, 1⟩, [.pending, .ready 2], [0, 0, 9, 9])
    ∧ UnsendState.runCalls (UnsendState.new [0, 0]) [([9, 8], .ready 3)]
      = (⟨some [8], 2⟩, [.ready 1], [0, 0, 9]) := by
  decide

/-- Claim C2 (evidence of the code bug): `VlessRequestHeader::parse` with
default options on a buffer of exactly 18 bytes indexes `buffer[18]` out of
bounds and panics (first conjunct); a 17-byte buffer still gets
`Incomplete`; and an 18-byte buffer with a bad version byte yields
`Error(InvalidVersion)` — in both 18-byte cases the claim demands
`Incomplete` and no out-of-bounds access. -/
theorem vlessRequest_parse_18_byte_buffer_panics :
    VlessRequestHeader.parse (List.replicate 18 0) = .Panicked
    ∧ VlessRequestHeader.parse (List.replicate 17 0) = .Incomplete 2
    ∧ VlessRequestHeader.parse (0x01 :: List.replicate 17 0)
        = .Error .InvalidVersion := by
  decide

/-- Claim C3, counterexample: for the Mux header carrying the sentinel
destination, `size()` is 34 — `19 + destination.size()` — not 19, and
`form` writes the full 34 bytes including the address encoding after byte
18, i.e. the address encoding is not skipped. -/
theorem vlessRequest_mux_form_not_19_bytes :
    VlessRequestHeader.size ⟨muxSentinel, List.replicate 16 0, .Mux⟩ ≠ 19
    ∧ VlessRequestHeader.size ⟨muxSentinel, List.replicate 16 0, .Mux⟩ = 34
    ∧ VlessRequestHeader.form ⟨muxSentinel, List.replicate 16 0, .Mux⟩
        (List.replicate 34 0)
      = .ok [0, 0, 0, 0, 0, 0, 0, 0, 0, 0, 0, 0, 0, 0, 0, 0, 0, 0, 3, 0, 0,
          2, 11, 118, 49, 46, 109, 117, 120, 46, 99, 111, 111, 108] 34 := by
  decide

/-- Claim C3, amended: for every `VlessRequestHeader` with the Mux command
(16-byte user, well-formed address), `size()` is `19 + destination.size()`
and `form` writes the 19-byte prefix followed by the destination encoding
(the address is not skipped); parsing the formed bytes yields `Parsed` with
the sentinel destination `Domain("v1.mux.cool"):0` and consumed size 19. -/
theorem vlessRequest_mux_form_parse :
    ∀ h : VlessRequestHeader, h.command = .Mux → h.user.length = 16 →
      h.address.address.WF →
      h.size = 19 + h.address.size
      ∧ h.form (List.replicate h.size 0)
          = .ok ((0x00 :: h.user ++ [0x00, 0x03]) ++ h.address.wire) h.size
      ∧ VlessRequestHeader.parse ((0x00 :: h.user ++ [0x00, 0x03])
            ++ h.address.wire)
          = .Parsed ⟨muxSentinel, h.user, .Mux⟩ 19 := by
  intro h hcmd hu hwf
  refine ⟨rfl, ?_, VlessRequestHeader.parse_mux_wire _ _ hu⟩
  have hf := VlessRequestHeader.formHeader_replicate h hu hwf
  rw [hcmd] at hf
  simpa [VlessCommand.byte] using hf

/-- Witness for C3's amended theorem at a concrete Mux header whose stored
address is **not** the sentinel: the parsed destination is the sentinel
regardless. -/
theorem vlessRequest_mux_form_parse_witness :
    (⟨⟨.IPv4 [127, 0, 0, 1], 80⟩, List.replicate 16 9, .Mux⟩
        : VlessRequestHeader).size
      = 19 + (⟨.IPv4 [127, 0, 0, 1], 80⟩ : ProxyAddressWithPort).size
    ∧ (⟨⟨.IPv4 [127, 0, 0, 1], 80⟩, List.replicate 16 9, .Mux⟩
        : VlessRequestHeader).form
        (List.replicate (⟨⟨.IPv4 [127, 0, 0, 1], 80⟩, List.replicate 16 9,
          .Mux⟩ : VlessRequestHeader).size 0)
      = .ok ((0x00 :: List.replicate 16 9 ++ [0x00, 0x03])
          ++ (⟨.IPv4 [127, 0, 0, 1], 80⟩ : ProxyAddressWithPort).wire)
        (⟨⟨.IPv4 [127, 0, 0, 1], 80⟩, List.replicate 16 9, .Mux⟩
          : VlessRequestHeader).size
    ∧ VlessRequestHeader.parse ((0x00 :: List.replicate 16 9 ++ [0x00, 0x03])
          ++ (⟨.IPv4 [127, 0, 0, 1], 80⟩ : ProxyAddressWithPort).wire)
      = .Parsed ⟨muxSentinel, List.replicate 16 9, .Mux⟩ 19 :=
  vlessRequest_mux_form_parse _ rfl (by decide)
    (by show ([127, 0, 0, 1] : List Nat).length = 4; decide)

/-- Claim C4, counterexample: the round-trip law fails for
`Domain("")`: its 2-byte encoding `[0x02, 0x00]` is produced by `form`, but
`parse` answers `Incomplete{needed:1}` (the unconditional 3-byte minimum
check fires), not `Parsed`. -/
theorem proxyAddress_empty_domain_roundtrip_fails :
    ProxyAddress.form (.Domain [])
        (List.replicate (ProxyAddress.size (.Domain [])) 0)
      = .ok [0x02, 0x00] 2
    ∧ ProxyAddress.parse [0x02, 0x00] = .Incomplete 1
    ∧ ProxyAddress.parse [0x02, 0x00] ≠ .Parsed (.Domain []) 2 := by
  decide

/-- Claim C4, amended: the round-trip law `parse(form(v)) = Parsed{v,
size(v)}` holds for every `ProxyAddress` (and `ProxyAddressWithPort` with a
`u16` port) whose domain, if any, has byte length between 1 and 255 — the
law fails only for empty domains (see the counterexample) and for domains
longer than 255 bytes (whose length byte wraps mod 256). -/
theorem vless_address_roundtrip :
    (∀ a : ProxyAddress, a.WF →
      (∀ d, a = .Domain d → 1 ≤ d.length ∧ d.length ≤ 255) →
      a.form (List.replicate a.size 0) = .ok a.wire a.size
      ∧ ProxyAddress.parse a.wire = .Parsed a a.size)
    ∧ (∀ a : ProxyAddressWithPort, a.address.WF →
      (∀ d, a.address = .Domain d → 1 ≤ d.length ∧ d.length ≤ 255) →
      a.port < 65536 →
      a.form (List.replicate a.size 0) = .ok a.wire a.size
      ∧ ProxyAddressWithPort.parse a.wire = .Parsed a a.size) :=
  ⟨fun a hwf hdom =>
    ⟨ProxyAddress.form_replicate a hwf, ProxyAddress.parse_wire a hwf hdom⟩,
   fun a hwf hdom hport =>
    ⟨ProxyAddressWithPort.formPort_replicate a hwf,
     ProxyAddressWithPort.parsePort_wire a hwf hdom hport⟩⟩

/-- Witness for C4's amended theorem at `Domain("example.com")` and at
`IPv4(192.168.1.1):443`. -/
theorem vless_address_roundtrip_witness :
    (ProxyAddress.form
        (.Domain [101, 120, 97, 109, 112, 108, 101, 46, 99, 111, 109])
        (List.replicate (ProxyAddress.size
          (.Domain [101, 120, 97, 109, 112, 108, 101, 46, 99, 111, 109])) 0)
      = .ok (ProxyAddress.wire
          (.Domain [101, 120, 97, 109, 112, 108, 101, 46, 99, 111, 109]))
        (ProxyAddress.size
          (.Domain [101, 120, 97, 109, 112, 108, 101, 46, 99, 111, 109]))
    ∧ ProxyAddress.parse (ProxyAddress.wire
        (.Domain [101, 120, 97, 109, 112, 108, 101, 46, 99, 111, 109]))
      = .Parsed (.Domain [101, 120, 97, 109, 112, 108, 101, 46, 99, 111, 109])
        (ProxyAddress.size
          (.Domain [101, 120, 97, 109, 112, 108, 101, 46, 99, 111, 109])))
    ∧ ((⟨.IPv4 [192, 168, 1, 1], 443⟩ : ProxyAddressWithPort).form
        (List.replicate
          (⟨.IPv4 [192, 168, 1, 1], 443⟩ : ProxyAddressWithPort).size 0)
      = .ok (⟨.IPv4 [192, 168, 1, 1], 443⟩ : ProxyAddressWithPort).wire
        (⟨.IPv4 [192, 168, 1, 1], 443⟩ : ProxyAddressWithPort).size
    ∧ ProxyAddressWithPort.parse
        (⟨.IPv4 [192, 168, 1, 1], 443⟩ : ProxyAddressWithPort).wire
      = .Parsed ⟨.IPv4 [192, 168, 1, 1], 443⟩
        (⟨.IPv4 [192, 168, 1, 1], 443⟩ : ProxyAddressWithPort).size) :=
  ⟨vless_address_roundtrip.1 _
      (by show validUtf8 [101, 120, 97, 109, 112, 108, 101, 46, 99, 111, 109]
            = true
          decide)
      (by intro d hd; injection hd with h; subst h; decide),
   vless_address_roundtrip.2 _
      (by show ([192, 168, 1, 1] : List Nat).length = 4; decide)
      (by intro d hd; exact ProxyAddress.noConfusion hd) (by decide)⟩

/-- Claim C5 (evidence of the code bug): on the buffer `[0x02, 0x01, 0xFF]`
— a domain address with its full declared byte count present but invalid
UTF-8 — `ProxyAddress` parsing panics (`str::from_utf8(..).unwrap()`); it
does not return any error value, in particular not the claimed
`InvalidAddress`. -/
theorem proxyAddress_invalid_utf8_panics :
    ProxyAddress.parse [0x02, 0x01, 0xFF] = .Panicked
    ∧ ProxyAddress.parse [0x02, 0x01, 0xFF] ≠ .Error .mk := by
  decide

/-- Claim C6 (evidence of the code bug): `VlessResponseHeader::form` does no
size check — on an empty buffer it panics, and on a 1-byte buffer it first
overwrites byte 0 and then panics (partial write), never returning
`InsufficientBuffer` (its error type `Never` cannot carry it); and
`ProxyAddressWithPort::form` of `IPv4:0x1234` into a 3-byte buffer returns
`InsufficientBuffer` but has already overwritten the two port bytes, so the
buffer is not left unchanged. -/
theorem vless_form_short_buffer_violations :
    VlessResponseHeader.form_with_option [] = .panicked []
    ∧ VlessResponseHeader.form_with_option [7] = .panicked [0]
    ∧ ProxyAddressWithPort.form ⟨.IPv4 [1, 2, 3, 4], 0x1234⟩ [9, 9, 9]
        = .insufficient [0x12, 0x34, 9] := by
  decide

/-- Claim C7, counterexample: in the message-stream relay, an error yielded
by the client stream terminates the relay with a **successful** return
(`Ok(())`) — the I/O error is logged and swallowed, not reported to the
caller as the claim demands. -/
theorem proxySinkStream_swallows_stream_error :
    (proxy_sink_stream [.fromIn (some (.error 7)) (.ok ())]).outcome
      = some .ok
    ∧ (proxy_sink_stream [.fromIn (some (.error 7)) (.ok ())]).outcome
        ≠ some (.err 7) := by
  decide

/-- Claim C7, amended: in the byte-stream relay every underlying I/O error
(read, `write_all`, `shutdown`) terminates the relay and is returned to the
caller (first two conjuncts). In the message-stream relay only `sink.send`
errors are returned (third conjunct); an error from the client message
stream or from the outbound read terminates the loop with a successful
`Ok(())` return (fourth and fifth conjuncts), and an outbound `write_all`
error panics (`.unwrap()`, sixth conjunct). -/
theorem relay_error_reporting :
    (∀ pre post s e io, (∀ ev ∈ pre, RelayEv.Progressing ev) →
      (tcpProxy (pre ++ ⟨s, .error e, io⟩ :: post)).outcome
        = some (.error e))
    ∧ (∀ pre post s c e, (∀ ev ∈ pre, RelayEv.Progressing ev) →
      (tcpProxy (pre ++ ⟨s, .ok c, .error e⟩ :: post)).outcome
        = some (.error e))
    ∧ (∀ pre post c e snd', (∀ ev ∈ pre, MsgEv.Progressing ev) →
      snd' = Except.error e →
      (proxy_sink_stream (pre ++ .fromOut (.ok c) snd' :: post)).outcome
        = some (.err e))
    ∧ (∀ pre post e wr, (∀ ev ∈ pre, MsgEv.Progressing ev) →
      (proxy_sink_stream (pre ++ .fromIn (some (.error e)) wr :: post)).outcome
        = some .ok)
    ∧ (∀ pre post e snd', (∀ ev ∈ pre, MsgEv.Progressing ev) →
      (proxy_sink_stream (pre ++ .fromOut (.error e) snd' :: post)).outcome
        = some .ok)
    ∧ (∀ pre post msg e, (∀ ev ∈ pre, MsgEv.Progressing ev) →
      (proxy_sink_stream
        (pre ++ .fromIn (some (.ok msg)) (.error e) :: post)).outcome
        = some .panicked) := by
  refine ⟨?_, ?_, ?_, ?_, ?_, ?_⟩
  · intro pre post s e io hp
    rw [tcpProxy_append _ _ hp]
    cases s <;> simp [tcpProxy]
  · intro pre post s c e hp
    rw [tcpProxy_append _ _ hp]
    cases hc : c.isEmpty <;> cases s <;> simp [tcpProxy, hc]
  · intro pre post c e snd' hp hsnd
    subst hsnd
    rw [proxy_sink_stream_append _ _ hp]
    cases hc : c.isEmpty <;> simp [proxy_sink_stream, hc]
  · intro pre post e wr hp
    rw [proxy_sink_stream_append _ _ hp]
    simp [proxy_sink_stream]
  · intro pre post e snd' hp
    rw [proxy_sink_stream_append _ _ hp]
    simp [proxy_sink_stream]
  · intro pre post msg e hp
    rw [proxy_sink_stream_append _ _ hp]
    simp [proxy_sink_stream]

/-- Witness for C7's amended theorem: a byte-relay read error is returned;
a message-relay outbound read error yields a successful return. -/
theorem relay_error_reporting_witness :
    (tcpProxy [⟨.inS, .error 5, .ok ()⟩]).outcome = some (.error 5)
    ∧ (proxy_sink_stream [.fromOut (.error 6) (.ok ())]).outcome
        = some .ok :=
  ⟨by
    have h := relay_error_reporting.1 [] [] .inS 5 (.ok ())
      (by intro ev hev; exact absurd hev (List.not_mem_nil ev))
    simpa using h,
   by
    have h := relay_error_reporting.2.2.2.2.1 [] [] 6 (.ok ())
      (by intro ev hev; exact absurd hev (List.not_mem_nil ev))
    simpa using h⟩

/-- Claim C8 (evidence of the code bug): the TCP connection driver's
header-read loop never terminates on EOF. With 5 zero bytes delivered and
then EOF (every further read returns 0 bytes), the header stays
`Incomplete`, `offset` never advances, and for **every** fuel bound the
loop is still running — it neither fails with `UnexpectedDisconnection`
nor returns. -/
theorem vlessHandle_header_loop_spins_on_eof :
    ∀ fuel, handleHeaderLoop fuel [] [[0, 0, 0, 0, 0]] = none := by
  have hstep : ∀ n, handleHeaderLoop n [0, 0, 0, 0, 0] [] = none := by
    intro n
    induction n with
    | zero => rfl
    | succ k ih =>
      have hp : VlessRequestHeader.parse [0, 0, 0, 0, 0] = .Incomplete 14 :=
        by decide
      simp [handleHeaderLoop, hp, ih]
  intro fuel
  cases fuel with
  | zero => rfl
  | succ n =>
    have hp : VlessRequestHeader.parse [] = .Incomplete 19 := by decide
    simp [handleHeaderLoop, hp]
    exact hstep n

/-- Claim C9: in the byte-stream relay, after any number of progressing
iterations `pre` (successful non-empty reads, each chunk fully written to
the opposite half before the next event), an EOF (zero-byte read) on one
read half shuts down the **opposite** write half, returns `Ok(())`, leaves
the other write half not shut down, and consumes no further events (the
other direction is not drained); the bytes written to each half are exactly
the concatenation, in order, of the chunks read from the opposite half. -/
theorem tcpProxy_halfclose :
    ∀ pre post, (∀ ev ∈ pre, RelayEv.Progressing ev) →
      tcpProxy (pre ++ ⟨.inS, .ok [], .ok ()⟩ :: post)
        = ⟨chunksFrom .inS pre, chunksFrom .outS pre, true, false,
            some (.ok ()), post⟩
      ∧ tcpProxy (pre ++ ⟨.outS, .ok [], .ok ()⟩ :: post)
        = ⟨chunksFrom .inS pre, chunksFrom .outS pre, false, true,
            some (.ok ()), post⟩ := by
  intro pre post hp
  constructor <;> (rw [tcpProxy_append _ _ hp]; simp [tcpProxy])

/-- Witness for C9: one chunk each way, then EOF from the client side; the
unconsumed trailing event remains. -/
theorem tcpProxy_halfclose_witness :
    tcpProxy [⟨.inS, .ok [1, 2], .ok ()⟩, ⟨.outS, .ok [9], .ok ()⟩,
        ⟨.inS, .ok [], .ok ()⟩, ⟨.outS, .ok [7], .ok ()⟩]
      = ⟨[1, 2], [9], true, false, some (.ok ()),
          [⟨.outS, .ok [7], .ok ()⟩]⟩ := by
  have h := (tcpProxy_halfclose
    [⟨.inS, .ok [1, 2], .ok ()⟩, ⟨.outS, .ok [9], .ok ()⟩]
    [⟨.outS, .ok [7], .ok ()⟩]
    (by
      intro ev hev
      simp at hev
      rcases hev with h1 | h2
      · subst h1; exact ⟨by decide, rfl⟩
      · subst h2; exact ⟨by decide, rfl⟩)).1
  simpa [chunksFrom] using h

/-- Claim C10: `ProxyAddress::form` for a domain writes the length byte as
the domain's byte length reduced mod 256, copies all the domain bytes, and
returns `2 + length`, for **every** domain length (no rejection of long
domains); the length byte equals the actual length exactly when the length
is at most 255. -/
theorem proxyAddress_domain_form_mod256 :
    ∀ domain : List Nat,
      ProxyAddress.form (.Domain domain)
          (List.replicate (2 + domain.length) 0)
        = .ok (0x02 :: domain.length % 256 :: domain) (2 + domain.length)
      ∧ (domain.length % 256 = domain.length ↔ domain.length ≤ 255) := by
  intro domain
  constructor
  · simp [ProxyAddress.form, ProxyAddress.form_with_option, setSlice, setByte,
      List.replicate_succ, List.take_replicate, List.drop_replicate]
    omega
  · omega
